import Mathlib

/-!
Shallow embedding of the `post_normalizer` Django app (files
`post_normalizer/models.py`, `post_normalizer/management/commands/run_userbot.py`
and `post_normalizer/management/commands/run_normalizer.py`) together with
theorems settling the specification claims about it.

The two management commands contain the same normalization pipeline
(duplicate check, quota check, delete, repost, hash insertion, counter
increment, invite handling); the pipeline is embedded once below
(`normalize_message`), and the scheduler-specific parts of `run_userbot.py`
(`pending_messages`, `process_message_after_delay`, `handle_message_deleted`)
are embedded on top of it.

Database rows are modelled as lists of records, transport outcomes
(message still exists, delete succeeded, repost succeeded, membership
query results) as explicit inputs, and the side effects issued to the
transport as an explicit effect trace.
-/

namespace PostNormalizer

/-! ## Calendar model (Python `datetime.date`)

`AuthorPostCount.reset_if_needed` compares dates and ISO calendar pairs, so
we embed the relevant parts of CPython's `datetime.date`: `toordinal`
(proleptic Gregorian ordinal, 0001-01-01 is day 1) and `isocalendar`
(ISO 8601 year and week).  Years are natural numbers (Python restricts
`date.year` to 1..9999); all divisions below are of non-negative values,
where Lean's `Nat` division agrees with Python's floor division. -/

structure PyDate where
  year : Nat
  month : Nat
  day : Nat
deriving DecidableEq, Repr

def isLeapYear (y : Nat) : Bool :=
  y % 4 == 0 && (y % 100 != 0 || y % 400 == 0)

def daysInMonth (y m : Nat) : Nat :=
  match m with
  | 1 => 31 | 2 => if isLeapYear y then 29 else 28
  | 3 => 31 | 4 => 30 | 5 => 31 | 6 => 30 | 7 => 31
  | 8 => 31 | 9 => 30 | 10 => 31 | 11 => 30 | 12 => 31
  | _ => 0

def daysBeforeMonth (y m : Nat) : Nat :=
  (List.range m).foldl (fun acc k => acc + daysInMonth y k) 0

/-- Days before January 1st of year `y` (CPython `_days_before_year`):
`(y-1)*365 + (y-1)//4 - (y-1)//100 + (y-1)//400`, rearranged so that the
`Nat` subtraction never truncates (`a/4 ≥ a/100`). -/
def daysBeforeYear (y : Nat) : Nat :=
  (y - 1) * 365 + (y - 1) / 4 + (y - 1) / 400 - (y - 1) / 100

/-- CPython `_ymd2ord`. -/
def PyDate.toOrdinal (d : PyDate) : Nat :=
  daysBeforeYear d.year + daysBeforeMonth d.year d.month + d.day

/-- Python `date` comparison (`<` on dates agrees with `<` on ordinals). -/
def PyDate.before (a b : PyDate) : Prop := a.toOrdinal < b.toOrdinal

instance : DecidablePred (fun p : PyDate × PyDate => p.1.before p.2) :=
  fun _ => Nat.decLt _ _

instance (a b : PyDate) : Decidable (a.before b) := Nat.decLt _ _

/-- CPython `_isoweek1monday`: ordinal of the Monday starting ISO week 1 of
`year`.  `Int`-valued because it can precede the epoch for year 1. -/
def isoweek1monday (year : Nat) : Int :=
  let firstday : Int := ((PyDate.mk year 1 1).toOrdinal : Int)
  let firstweekday : Int := (firstday + 6) % 7
  let week1monday := firstday - firstweekday
  if firstweekday > 3 then week1monday + 7 else week1monday

/-- CPython `date.isocalendar`, restricted to its first two components
`(ISO year, ISO week)` — all the model code uses (`isocalendar()[:2]`). -/
def PyDate.isocalendarYW (d : PyDate) : Int × Int :=
  let year : Int := (d.year : Int)
  let today : Int := (d.toOrdinal : Int)
  let week := Int.fdiv (today - isoweek1monday d.year) 7
  if week < 0 then
    let week' := Int.fdiv (today - isoweek1monday (d.year - 1)) 7
    (year - 1, week' + 1)
  else if week ≥ 52 then
    if today ≥ isoweek1monday (d.year + 1) then (year + 1, 1)
    else (year, week + 1)
  else (year, week + 1)

/-- Strict lexicographic order on ISO `(year, week)` pairs. -/
def isoPairLt (a b : Int × Int) : Prop :=
  a.1 < b.1 ∨ (a.1 = b.1 ∧ a.2 < b.2)

/-- Reflexive lexicographic order on ISO `(year, week)` pairs. -/
def isoPairLe (a b : Int × Int) : Prop :=
  a.1 < b.1 ∨ (a.1 = b.1 ∧ a.2 ≤ b.2)

instance (a b : Int × Int) : Decidable (isoPairLt a b) := by
  unfold isoPairLt; infer_instance

instance (a b : Int × Int) : Decidable (isoPairLe a b) := by
  unfold isoPairLe; infer_instance

/-! ## SHA-256 (`hashlib.sha256(...).hexdigest()`)

`PostHash.create_hash` hashes the UTF-8 encoding of its joined content with
SHA-256 and returns the hex digest.  We embed SHA-256 over `Nat` with
explicit reduction modulo `2^32`. -/

def w32 : Nat := 4294967296

def rotr32 (n x : Nat) : Nat :=
  ((x >>> n) ||| (x <<< (32 - n))) % w32

def shaK : List Nat :=
  [1116352408, 1899447441, 3049323471, 3921009573, 961987163,
   1508970993, 2453635748, 2870763221, 3624381080, 310598401,
   607225278, 1426881987, 1925078388, 2162078206, 2614888103,
   3248222580, 3835390401, 4022224774, 264347078, 604807628,
   770255983, 1249150122, 1555081692, 1996064986, 2554220882,
   2821834349, 2952996808, 3210313671, 3336571891, 3584528711,
   113926993, 338241895, 666307205, 773529912, 1294757372,
   1396182291, 1695183700, 1986661051, 2177026350, 2456956037,
   2730485921, 2820302411, 3259730800, 3345764771, 3516065817,
   3600352804, 4094571909, 275423344, 430227734, 506948616,
   659060556, 883997877, 958139571, 1322822218, 1537002063,
   1747873779, 1955562222, 2024104815, 2227730452, 2361852424,
   2428436474, 2756734187, 3204031479, 3329325298]

def shaH0 : List Nat :=
  [1779033703, 3144134277, 1013904242, 2773480762, 1359893119,
   2600822924, 528734635, 1541459225]

/-- Pad a byte string per SHA-256: append `0x80`, zeros to 56 mod 64, then
the bit length as 8 big-endian bytes. -/
def shaPad (msg : List Nat) : List Nat :=
  let len := msg.length
  let zeros := (56 + 64 - (len + 1) % 64) % 64
  let bitLen := len * 8
  msg ++ [0x80] ++ List.replicate zeros 0 ++
    (List.range 8).map (fun i => (bitLen >>> ((7 - i) * 8)) % 256)

/-- Split into 64-byte blocks. -/
def shaBlocks (bs : List Nat) : List (List Nat) :=
  match bs with
  | [] => []
  | b :: rest => (b :: rest).take 64 :: shaBlocks (rest.drop 63)
termination_by bs.length
decreasing_by
  simp [List.length_drop]
  omega

/-- 16 big-endian 32-bit words of one 64-byte block. -/
def shaWords (block : List Nat) : List Nat :=
  (List.range 16).map (fun i =>
    (block.getD (4 * i) 0) <<< 24 ||| (block.getD (4 * i + 1) 0) <<< 16 |||
    (block.getD (4 * i + 2) 0) <<< 8 ||| block.getD (4 * i + 3) 0)

/-- Message schedule `W[0..63]`, accumulated in reverse. -/
def shaSchedule (ws : List Nat) : Nat → List Nat
  | 0 => ws.reverse
  | n + 1 =>
    if ws.length < 16 then shaSchedule ws 0
    else
      let get := fun (k : Nat) => ws.getD (k - 1) 0
      let x15 := get 15
      let x2 := get 2
      let s0 := rotr32 7 x15 ^^^ rotr32 18 x15 ^^^ (x15 >>> 3)
      let s1 := rotr32 17 x2 ^^^ rotr32 19 x2 ^^^ (x2 >>> 10)
      shaSchedule (((get 16 + s0 + get 7 + s1) % w32) :: ws) n

/-- One round of the SHA-256 compression function. -/
def shaRound (st : List Nat) (kw : Nat × Nat) : List Nat :=
  match st with
  | [a, b, c, d, e, f, g, h] =>
    let s1 := rotr32 6 e ^^^ rotr32 11 e ^^^ rotr32 25 e
    let ch := (e &&& f) ^^^ ((w32 - 1 - e) &&& g)
    let t1 := (h + s1 + ch + kw.1 + kw.2) % w32
    let s0 := rotr32 2 a ^^^ rotr32 13 a ^^^ rotr32 22 a
    let mj := (a &&& b) ^^^ (a &&& c) ^^^ (b &&& c)
    let t2 := (s0 + mj) % w32
    [(t1 + t2) % w32, a, b, c, (d + t1) % w32, e, f, g]
  | st => st

/-- Process one 64-byte block. -/
def shaCompress (hs : List Nat) (block : List Nat) : List Nat :=
  let wsched := shaSchedule (shaWords block).reverse 48
  let st := (shaK.zip wsched).foldl shaRound hs
  (hs.zip st).map (fun p => (p.1 + p.2) % w32)

def hexDigitChar (n : Nat) : Char :=
  "0123456789abcdef".toList.getD n '0'

/-- 32-bit word as 8 lowercase hex characters. -/
def word32Hex (x : Nat) : List Char :=
  (List.range 8).map (fun i => hexDigitChar ((x >>> ((7 - i) * 4)) % 16))

/-- SHA-256 lowercase hex digest of a byte string. -/
def sha256Hex (msg : List Nat) : String :=
  let hs := (shaBlocks (shaPad msg)).foldl shaCompress shaH0
  ⟨(hs.map word32Hex).flatten⟩

/-- UTF-8 bytes of a string (`str.encode('utf-8')`). -/
def strBytes (s : String) : List Nat :=
  s.toUTF8.toList.map (fun b => b.toNat)

/-! ## `models.py` -/

/-- Python `x or ''` for an optional string (`None` and `''` both yield `''`). -/
def pyOrEmpty : Option String → String
  | none => ""
  | some s => s

/-- The string hashed by `PostHash.create_hash`:
`f"{text or ''}|{media_file_id or ''}"`. -/
def hashContent (text : String) (media_file_id : Option String) : String :=
  text ++ "|" ++ pyOrEmpty media_file_id

/-- `PostHash.create_hash`: SHA-256 hex digest of the joined content. -/
def create_hash (text : String) (media_file_id : Option String) : String :=
  sha256Hex (strBytes (hashContent text media_file_id))

/-- A `PostHash` row.  Groups are identified by their `chat_id`;
`created_at` is a Unix timestamp in seconds. -/
structure PostHashRow where
  group : Int
  message_hash : String
  created_at : Int
deriving DecidableEq, Repr

/-- `timedelta(days=3)` in seconds. -/
def threeDaysSeconds : Int := 259200

/-- `PostHash.is_duplicate`: does a row for this `(group, message_hash)`
pair exist with `created_at ≥ now - timedelta(days=3)`? -/
def is_duplicate (rows : List PostHashRow) (group : Int) (message_hash : String)
    (now : Int) : Bool :=
  rows.any (fun r =>
    r.group == group && r.message_hash == message_hash &&
      decide (now - threeDaysSeconds ≤ r.created_at))

/-- An `AuthorPostCount` row. -/
structure AuthorPostCountRow where
  group : Int
  user_id : Int
  posts_today : Nat
  posts_this_week : Nat
  last_day_reset : PyDate
  last_week_reset : PyDate
deriving DecidableEq, Repr

/-- `AuthorPostCount.reset_if_needed`.  Note that the source line
`current_week, current_year = now.isocalendar()[:2]` binds the ISO *year*
to the name `current_week` and the ISO *week* to `current_year` (and
likewise for `last_reset_week, last_reset_year`); written with `c`/`l`
for the actual ISO `(year, week)` pairs, the source test
`current_year > last_reset_year or current_week != last_reset_week`
reads `c.2 > l.2 ∨ c.1 ≠ l.1`. -/
def reset_if_needed (row : AuthorPostCountRow) (today : PyDate) : AuthorPostCountRow :=
  let row1 :=
    if row.last_day_reset.before today then
      { row with posts_today := 0, last_day_reset := today }
    else row
  let c := today.isocalendarYW
  let l := row1.last_week_reset.isocalendarYW
  if c.2 > l.2 ∨ c.1 ≠ l.1 then
    { row1 with posts_this_week := 0, last_week_reset := today }
  else row1

/-- `PendingInvite.status` values. -/
inductive InviteStatus
  | pending
  | invited
  | joined
  | skipped
deriving DecidableEq, Repr

/-- A `PendingInvite` row (`added_at` is a Unix timestamp in seconds). -/
structure PendingInviteRow where
  group : Int
  user_id : Int
  status : InviteStatus
  added_at : Int
deriving DecidableEq, Repr

/-- The `NormalizerGroup` fields read by the embedded pipeline. -/
structure NormalizerGroup where
  chat_id : Int
  is_active : Bool
  limit_posts_day : Nat
  limit_posts_week : Nat
  invite_enabled : Bool
deriving DecidableEq, Repr

/-- The persistent store: one list per table used by the pipeline. -/
structure DB where
  post_hashes : List PostHashRow
  author_counts : List AuthorPostCountRow
  pending_invites : List PendingInviteRow
deriving DecidableEq, Repr

def findQuota (db : DB) (g uid : Int) : Option AuthorPostCountRow :=
  db.author_counts.find? (fun r => r.group == g && r.user_id == uid)

/-- `author_count.save()`: overwrite the row with this `(group, user_id)` key. -/
def saveQuota (db : DB) (row : AuthorPostCountRow) : DB :=
  { db with author_counts := db.author_counts.map (fun r =>
      if r.group == row.group && r.user_id == row.user_id then row else r) }

/-- `AuthorPostCount.objects.get_or_create(...)` with zero-count defaults;
the `last_day_reset`/`last_week_reset` fields default to `timezone.now`. -/
def getOrCreateQuota (db : DB) (g uid : Int) (today : PyDate) :
    AuthorPostCountRow × DB :=
  match findQuota db g uid with
  | some r => (r, db)
  | none =>
    let r : AuthorPostCountRow := ⟨g, uid, 0, 0, today, today⟩
    (r, { db with author_counts := db.author_counts ++ [r] })

def findInvite (db : DB) (g uid : Int) : Option PendingInviteRow :=
  db.pending_invites.find? (fun r => r.group == g && r.user_id == uid)

/-! ## The normalization pipeline
(`run_userbot.py  Command.normalize_message` /
`run_normalizer.py  Command.handle_message` after the delay; the two are
identical in every step modelled here). -/

/-- The message snapshot fields the pipeline reads.  `text_content` is
`message.text or message.caption or ''`; `media_file_id` is the `file_id`
of whichever media field is populated (`None` when absent); `sender_id`
is `message.from_user.id` (`None` for channel-authored posts). -/
structure Msg where
  chat_id : Int
  msg_id : Nat
  text_content : String
  media_file_id : Option String
  sender_id : Option Int
  forward_from_id : Option Int
deriving DecidableEq, Repr

/-- Transport outcomes and clocks for one pipeline run: whether the
original still exists at fire time, whether `message.delete()` and the
repost send succeed, `timezone.now()` as a Unix timestamp (`now`) and as
a calendar date (`today`). -/
structure Env where
  still_exists : Bool
  delete_ok : Bool
  repost_ok : Bool
  now : Int
  today : PyDate
deriving DecidableEq, Repr

/-- Python truthiness of an optional user id (`if original_sender_id:`). -/
def optIdTruthy : Option Int → Bool
  | none => false
  | some v => v != 0

/-- Operations the pipeline issues against the transport/store. -/
inductive Effect
  | existence_check
  | duplicate_check (digest : String)
  | delete_original
  | repost
  | hash_insert (digest : String)
  | quota_increment (user_id : Int)
  | invite_message (user_id : Int)
  | pending_invite_create (user_id : Int)
deriving DecidableEq, Repr

/-- Terminal state of one pipeline run. -/
inductive Outcome
  | gone
  | duplicate
  | day_limited
  | week_limited
  | delete_failed
  | repost_failed
  | reposted
deriving DecidableEq, Repr

/-- `Command.send_invite_message`: no-op when the group has invites
disabled; otherwise renders the template and attempts direct delivery to
`user_id`.  Delivery failure is caught and logged inside the function, so
it never writes to the store in either case; the effect records the
attempted send. -/
def send_invite_message (group : NormalizerGroup) (user_id : Int) (db : DB) :
    DB × List Effect :=
  if group.invite_enabled then (db, [.invite_message user_id]) else (db, [])

/-- `Command.track_author_for_invite`:
`PendingInvite.objects.get_or_create(group=..., user_id=..., defaults={'status': 'pending'})`.
An existing row for the pair is left untouched. -/
def track_author_for_invite (group : NormalizerGroup) (user_id : Int) (db : DB)
    (now : Int) : DB × List Effect :=
  match findInvite db group.chat_id user_id with
  | some _ => (db, [])
  | none =>
    ({ db with pending_invites :=
        db.pending_invites ++ [⟨group.chat_id, user_id, .pending, now⟩] },
     [.pending_invite_create user_id])

/-- Steps 4–11 of the pipeline: delete the original (failure logs and
returns), repost (an exception logs and skips steps 8–11), save the hash,
bump the counters of the held quota row, send the forward-author invite,
and get-or-create the sender's `PendingInvite`.  `quota_row` is the
post-reset `author_count` object the caller holds (`none` when the
message has no truthy sender id). -/
def repost_steps (group : NormalizerGroup) (msg : Msg) (env : Env) (db : DB)
    (message_hash : String) (quota_row : Option AuthorPostCountRow) :
    DB × List Effect × Outcome :=
  if env.delete_ok = false then (db, [.delete_original], .delete_failed) else
  if env.repost_ok = false then (db, [.delete_original], .repost_failed) else
  let db1 := { db with post_hashes :=
      db.post_hashes ++ [⟨group.chat_id, message_hash, env.now⟩] }
  let step9 :=
    match quota_row with
    | some row =>
      let row' := { row with posts_today := row.posts_today + 1,
                             posts_this_week := row.posts_this_week + 1 }
      (saveQuota db1 row', [Effect.quota_increment row.user_id])
    | none => (db1, ([] : List Effect))
  let step10 :=
    if optIdTruthy msg.forward_from_id = true ∧ msg.forward_from_id ≠ msg.sender_id then
      send_invite_message group (msg.forward_from_id.getD 0) step9.1
    else (step9.1, [])
  let step11 :=
    if optIdTruthy msg.sender_id = true then
      track_author_for_invite group (msg.sender_id.getD 0) step10.1 env.now
    else (step10.1, [])
  (step11.1,
   [Effect.delete_original, .repost, .hash_insert message_hash] ++
     step9.2 ++ step10.2 ++ step11.2,
   .reposted)

/-- The normalization pipeline from timer expiry on: existence re-check,
hash + duplicate check (duplicate ⇒ delete original and stop), quota
check for a truthy sender (limit reached ⇒ stop), then `repost_steps`. -/
def normalize_message (group : NormalizerGroup) (msg : Msg) (env : Env) (db : DB) :
    DB × List Effect × Outcome :=
  if env.still_exists = false then (db, [.existence_check], .gone) else
  let message_hash := create_hash msg.text_content msg.media_file_id
  let effs0 : List Effect := [.existence_check, .duplicate_check message_hash]
  if is_duplicate db.post_hashes group.chat_id message_hash env.now = true then
    (db, effs0 ++ [.delete_original], .duplicate)
  else if optIdTruthy msg.sender_id = true then
    let uid := msg.sender_id.getD 0
    let gc := getOrCreateQuota db group.chat_id uid env.today
    let row' := reset_if_needed gc.1 env.today
    let db2 := saveQuota gc.2 row'
    if group.limit_posts_day > 0 ∧ row'.posts_today ≥ group.limit_posts_day then
      (db2, effs0, .day_limited)
    else if group.limit_posts_week > 0 ∧ row'.posts_this_week ≥ group.limit_posts_week then
      (db2, effs0, .week_limited)
    else
      let r := repost_steps group msg env db2 message_hash (some row')
      (r.1, effs0 ++ r.2.1, r.2.2)
  else
    let r := repost_steps group msg env db message_hash none
    (r.1, effs0 ++ r.2.1, r.2.2)

/-! ## Deferred scheduler (`run_userbot.py`) -/

/-- The key `f"{chat_id}_{message.id}"` of the `pending_messages` dict. -/
abbrev MsgKey := Int × Nat

def msgKey (msg : Msg) : MsgKey := (msg.chat_id, msg.msg_id)

/-- One `pending_messages` entry (the captured group and message snapshot). -/
structure PendingData where
  group : NormalizerGroup
  msg : Msg
deriving DecidableEq, Repr

/-- The userbot's process state: the in-memory pending table and the store. -/
structure BotState where
  pending_messages : List (MsgKey × PendingData)
  db : DB
deriving DecidableEq, Repr

def lookupPending (p : List (MsgKey × PendingData)) (k : MsgKey) :
    Option PendingData :=
  (p.find? (fun e => e.1 == k)).map Prod.snd

def removePending (p : List (MsgKey × PendingData)) (k : MsgKey) :
    List (MsgKey × PendingData) :=
  p.filter (fun e => e.1 != k)

/-- `handle_new_message` steps 127–135: store the snapshot under its key
(dict assignment overwrites any previous entry). -/
def schedule_message (s : BotState) (group : NormalizerGroup) (msg : Msg) :
    BotState :=
  { s with pending_messages :=
      removePending s.pending_messages (msgKey msg) ++ [(msgKey msg, ⟨group, msg⟩)] }

/-- `Command.process_message_after_delay` after the sleep: if the key is no
longer pending the firing returns immediately; otherwise pop the entry and
run `normalize_message` on the captured snapshot. -/
def process_message_after_delay (s : BotState) (k : MsgKey) (env : Env) :
    BotState × List Effect :=
  match lookupPending s.pending_messages k with
  | none => (s, [])
  | some d =>
    let pending' := removePending s.pending_messages k
    let r := normalize_message d.group d.msg env s.db
    (⟨pending', r.1⟩, r.2.1)

/-- `Command.handle_message_deleted`: drop every reported key from the
pending table. -/
def handle_message_deleted (s : BotState) (deleted : List MsgKey) : BotState :=
  { s with pending_messages := deleted.foldl removePending s.pending_messages }

/-- Repeated invocation of the pipeline on a stream of messages (the event
loop handling one accepted message after another against the shared store). -/
def runMessages (g : NormalizerGroup) (inputs : List (Msg × Env)) (db : DB) : DB :=
  inputs.foldl (fun d me => (normalize_message g me.1 me.2 d).1) db

/-! ## Invite sweep (`run_userbot.py  Command.check_pending_invites`) -/

/-- `timedelta(days=7)` in seconds. -/
def sevenDaysSeconds : Int := 604800

/-- `chat_member.status in ['member', 'administrator', 'creator']`. -/
def memberStatusJoined (st : String) : Bool :=
  st == "member" || st == "administrator" || st == "creator"

/-- `Command.check_pending_invites`: select the `pending` rows with
`added_at ≤ now - 7 days`; for each, query membership (`membership g u =
none` models `get_chat_member` raising, which is caught and leaves the row
untouched) and set the status to `joined` when the reported status is
member/administrator/creator. -/
def check_pending_invites (db : DB) (now : Int)
    (membership : Int → Int → Option String) : DB :=
  { db with pending_invites := db.pending_invites.map (fun r =>
      if r.status = .pending ∧ r.added_at ≤ now - sevenDaysSeconds then
        match membership r.group r.user_id with
        | none => r
        | some st =>
          if memberStatusJoined st then { r with status := .joined } else r
      else r) }

/-! ## Theorems -/

/-- The source's week-reset test (written with the actual ISO pairs) agrees
with "the stored ISO pair strictly precedes the current one" whenever the
stored pair does not lie in the future. -/
theorem week_cond_iff_isoPairLt (l c : Int × Int) (hw : isoPairLe l c) :
    (c.2 > l.2 ∨ c.1 ≠ l.1) ↔ isoPairLt l c := by
  unfold isoPairLe at hw
  unfold isoPairLt
  constructor
  · rintro (h | h)
    · rcases hw with h1 | ⟨h1, _⟩
      · exact Or.inl h1
      · exact Or.inr ⟨h1, h⟩
    · rcases hw with h1 | ⟨h1, _⟩
      · exact Or.inl h1
      · exact absurd h1.symm h
  · rintro (h | ⟨h1, h2⟩)
    · exact Or.inr (by omega)
    · exact Or.inl (by omega)

theorem reset_day_marker (row : AuthorPostCountRow) (today : PyDate) :
    (reset_if_needed row today).last_day_reset =
      if row.last_day_reset.before today then today else row.last_day_reset := by
  unfold reset_if_needed
  dsimp only
  split_ifs <;> rfl

theorem reset_week_marker (row : AuthorPostCountRow) (today : PyDate) :
    (reset_if_needed row today).last_week_reset =
      if today.isocalendarYW.2 > row.last_week_reset.isocalendarYW.2 ∨
          today.isocalendarYW.1 ≠ row.last_week_reset.isocalendarYW.1
      then today else row.last_week_reset := by
  unfold reset_if_needed
  dsimp only
  split_ifs <;> rfl

theorem reset_of_no_cond (r : AuthorPostCountRow) (t : PyDate)
    (hd : ¬ r.last_day_reset.before t)
    (hw : ¬ (t.isocalendarYW.2 > r.last_week_reset.isocalendarYW.2 ∨
        t.isocalendarYW.1 ≠ r.last_week_reset.isocalendarYW.1)) :
    reset_if_needed r t = r := by
  unfold reset_if_needed
  dsimp only
  rw [if_neg hd, if_neg hw]

/-- Re-running `reset_if_needed` on the same day is a no-op: each counter
is reset at most once per boundary crossing. -/
theorem reset_if_needed_idem (row : AuthorPostCountRow) (today : PyDate) :
    reset_if_needed (reset_if_needed row today) today = reset_if_needed row today := by
  apply reset_of_no_cond
  · rw [reset_day_marker]
    by_cases hd : row.last_day_reset.before today
    · simp only [if_pos hd]
      unfold PyDate.before
      omega
    · simp only [if_neg hd]
      exact hd
  · rw [reset_week_marker]
    by_cases hwc : today.isocalendarYW.2 > row.last_week_reset.isocalendarYW.2 ∨
        today.isocalendarYW.1 ≠ row.last_week_reset.isocalendarYW.1
    · simp only [if_pos hwc]
      simp
    · simp only [if_neg hwc]
      exact hwc

/-- C1: whenever `reset_if_needed` runs on a quota row whose stored
week-reset marker is not in the future (ISO-pair-wise), the daily count is
zeroed and its marker set to today exactly when the stored last-day-reset
date precedes today, and independently the weekly count is zeroed and its
marker set to today exactly when the stored ISO (year, week) precedes the
current ISO (year, week); each reset touches only its own counter and
marker, and re-running on the same day changes nothing (each counter is
reset exactly once per boundary crossing). -/
theorem reset_if_needed_correct (row : AuthorPostCountRow) (today : PyDate)
    (hw : isoPairLe row.last_week_reset.isocalendarYW today.isocalendarYW) :
    reset_if_needed row today =
      { row with
        posts_today :=
          if row.last_day_reset.before today then 0 else row.posts_today,
        last_day_reset :=
          if row.last_day_reset.before today then today else row.last_day_reset,
        posts_this_week :=
          if isoPairLt row.last_week_reset.isocalendarYW today.isocalendarYW
          then 0 else row.posts_this_week,
        last_week_reset :=
          if isoPairLt row.last_week_reset.isocalendarYW today.isocalendarYW
          then today else row.last_week_reset } ∧
    reset_if_needed (reset_if_needed row today) today = reset_if_needed row today := by
  have hcond := week_cond_iff_isoPairLt row.last_week_reset.isocalendarYW
    today.isocalendarYW hw
  refine ⟨?_, reset_if_needed_idem row today⟩
  unfold reset_if_needed
  by_cases hd : row.last_day_reset.before today <;>
    by_cases hwk : isoPairLt row.last_week_reset.isocalendarYW today.isocalendarYW <;>
    [ (rw [if_pos hd]; dsimp only; rw [if_pos (hcond.mpr hwk)]);
      (rw [if_pos hd]; dsimp only; rw [if_neg (fun h => hwk (hcond.mp h))]);
      (rw [if_neg hd]; rw [if_pos (hcond.mpr hwk)]);
      (rw [if_neg hd]; rw [if_neg (fun h => hwk (hcond.mp h))]) ] <;>
    simp [hd, hwk]

/-- Witness for C1 at a concrete row crossing both a day and an ISO-week
boundary (2024-01-10 → 2024-01-20). -/
theorem reset_if_needed_correct_witness :
    isoPairLe (PyDate.mk 2024 1 10).isocalendarYW (PyDate.mk 2024 1 20).isocalendarYW ∧
    reset_if_needed
        ⟨1, 5, 3, 4, ⟨2024, 1, 10⟩, ⟨2024, 1, 10⟩⟩ ⟨2024, 1, 20⟩ =
      ⟨1, 5, 0, 0, ⟨2024, 1, 20⟩, ⟨2024, 1, 20⟩⟩ :=
  ⟨by decide, by
    rw [(reset_if_needed_correct ⟨1, 5, 3, 4, ⟨2024, 1, 10⟩, ⟨2024, 1, 10⟩⟩
      ⟨2024, 1, 20⟩ (by decide)).1]
    decide⟩

/-! Helper lemmas about the pipeline's building blocks. -/

theorem send_invite_message_db (g : NormalizerGroup) (u : Int) (db : DB) :
    (send_invite_message g u db).1 = db := by
  unfold send_invite_message
  split_ifs <;> rfl

theorem send_invite_message_effects (g : NormalizerGroup) (u : Int) (db : DB) :
    (send_invite_message g u db).2 = [] ∨
      (send_invite_message g u db).2 = [.invite_message u] := by
  unfold send_invite_message
  split_ifs <;> simp

theorem track_author_counts (g : NormalizerGroup) (u : Int) (db : DB) (now : Int) :
    (track_author_for_invite g u db now).1.author_counts = db.author_counts := by
  unfold track_author_for_invite
  cases findInvite db g.chat_id u <;> rfl

theorem track_author_hashes (g : NormalizerGroup) (u : Int) (db : DB) (now : Int) :
    (track_author_for_invite g u db now).1.post_hashes = db.post_hashes := by
  unfold track_author_for_invite
  cases findInvite db g.chat_id u <;> rfl

theorem track_author_effects (g : NormalizerGroup) (u : Int) (db : DB) (now : Int) :
    (track_author_for_invite g u db now).2 = [] ∨
      (track_author_for_invite g u db now).2 = [.pending_invite_create u] := by
  unfold track_author_for_invite
  cases findInvite db g.chat_id u <;> simp

theorem repost_steps_delete_fail (g : NormalizerGroup) (msg : Msg) (env : Env)
    (db : DB) (mh : String) (q : Option AuthorPostCountRow)
    (h : env.delete_ok = false) :
    repost_steps g msg env db mh q = (db, [.delete_original], .delete_failed) := by
  unfold repost_steps
  rw [if_pos h]

theorem repost_steps_repost_fail (g : NormalizerGroup) (msg : Msg) (env : Env)
    (db : DB) (mh : String) (q : Option AuthorPostCountRow)
    (h1 : env.delete_ok = true) (h2 : env.repost_ok = false) :
    repost_steps g msg env db mh q = (db, [.delete_original], .repost_failed) := by
  unfold repost_steps
  rw [if_neg (by simp [h1]), if_pos h2]

theorem repost_steps_success_outcome (g : NormalizerGroup) (msg : Msg) (env : Env)
    (db : DB) (mh : String) (q : Option AuthorPostCountRow)
    (h1 : env.delete_ok = true) (h2 : env.repost_ok = true) :
    (repost_steps g msg env db mh q).2.2 = .reposted ∧
    Effect.repost ∈ (repost_steps g msg env db mh q).2.1 ∧
    Effect.hash_insert mh ∈ (repost_steps g msg env db mh q).2.1 := by
  unfold repost_steps
  rw [if_neg (by simp [h1]), if_neg (by simp [h2])]
  dsimp only
  exact ⟨rfl, by simp, by simp⟩

theorem reset_ids (row : AuthorPostCountRow) (t : PyDate) :
    (reset_if_needed row t).group = row.group ∧
    (reset_if_needed row t).user_id = row.user_id := by
  unfold reset_if_needed
  dsimp only
  split_ifs <;> exact ⟨rfl, rfl⟩

theorem reset_today_vals (row : AuthorPostCountRow) (t : PyDate) :
    (reset_if_needed row t).posts_today = 0 ∨
    (reset_if_needed row t).posts_today = row.posts_today := by
  unfold reset_if_needed
  dsimp only
  split_ifs <;> simp

theorem find_save_list (l : List AuthorPostCountRow) (row : AuthorPostCountRow)
    (hmem : ∃ r ∈ l, r.group = row.group ∧ r.user_id = row.user_id) :
    (l.map (fun r =>
        if r.group == row.group && r.user_id == row.user_id then row else r)).find?
      (fun r => r.group == row.group && r.user_id == row.user_id) = some row := by
  induction l with
  | nil => simp at hmem
  | cons a t ih =>
    by_cases ha : a.group = row.group ∧ a.user_id = row.user_id
    · simp [ha.1, ha.2]
    · have hane : (a.group == row.group && a.user_id == row.user_id) = false := by
        simp only [Bool.and_eq_false_iff, beq_eq_false_iff_ne, ne_eq]
        by_cases h1 : a.group = row.group
        · right
          intro h2
          exact ha ⟨h1, h2⟩
        · left
          exact h1
      rcases hmem with ⟨r, hr, hk⟩
      rcases List.mem_cons.mp hr with rfl | hrt
      · exact absurd hk ha
      · simp only [List.map_cons, hane, Bool.false_eq_true, if_false]
        rw [List.find?_cons_of_neg _ (by simp [hane])]
        exact ih ⟨r, hrt, hk⟩

theorem mem_save_list (l : List AuthorPostCountRow) (row r : AuthorPostCountRow)
    (h : r ∈ l.map (fun x =>
        if x.group == row.group && x.user_id == row.user_id then row else x)) :
    r ∈ l ∨ r = row := by
  rcases List.mem_map.mp h with ⟨x, hx, hxe⟩
  by_cases hc : (x.group == row.group && x.user_id == row.user_id) = true
  · right
    rw [← hxe]
    simp [hc]
  · left
    rw [← hxe]
    simp [hc]
    exact hx

theorem getOrCreateQuota_ids (db : DB) (g uid : Int) (today : PyDate) :
    (getOrCreateQuota db g uid today).1.group = g ∧
    (getOrCreateQuota db g uid today).1.user_id = uid := by
  unfold getOrCreateQuota
  cases hf : findQuota db g uid with
  | none => exact ⟨rfl, rfl⟩
  | some r =>
    have hp := List.find?_some hf
    simp only [Bool.and_eq_true, beq_iff_eq] at hp
    exact ⟨hp.1, hp.2⟩

theorem getOrCreateQuota_fst_mem (db : DB) (g uid : Int) (today : PyDate) :
    (getOrCreateQuota db g uid today).1 ∈
      (getOrCreateQuota db g uid today).2.author_counts := by
  unfold getOrCreateQuota
  cases hf : findQuota db g uid with
  | none => simp
  | some r => exact List.mem_of_find?_eq_some hf

theorem mem_getOrCreate (db : DB) (g uid : Int) (today : PyDate)
    (r : AuthorPostCountRow)
    (h : r ∈ (getOrCreateQuota db g uid today).2.author_counts) :
    r ∈ db.author_counts ∨ r = ⟨g, uid, 0, 0, today, today⟩ := by
  unfold getOrCreateQuota at h
  cases hf : findQuota db g uid with
  | none =>
    rw [hf] at h
    simp at h
    rcases h with h | h
    · exact Or.inl h
    · exact Or.inr h
  | some x =>
    rw [hf] at h
    exact Or.inl h

theorem getOrCreate_fst_bound (db : DB) (g uid : Int) (today : PyDate) (N : Nat)
    (hinv : ∀ r ∈ db.author_counts, r.group = g → r.user_id = uid →
      r.posts_today ≤ N) :
    (getOrCreateQuota db g uid today).1.posts_today ≤ N := by
  unfold getOrCreateQuota
  cases hf : findQuota db g uid with
  | none => simp
  | some r =>
    have hp := List.find?_some hf
    simp only [Bool.and_eq_true, beq_iff_eq] at hp
    exact hinv r (List.mem_of_find?_eq_some hf) hp.1 hp.2

theorem step_invite_authors (g : NormalizerGroup) (c : Prop) [Decidable c]
    (u : Int) (d : DB) :
    (if c then send_invite_message g u d else (d, [])).1.author_counts =
      d.author_counts := by
  split_ifs with h
  · rw [send_invite_message_db]
  · rfl

theorem step_track_authors (g : NormalizerGroup) (c : Prop) [Decidable c]
    (u : Int) (d : DB) (now : Int) :
    (if c then track_author_for_invite g u d now else (d, [])).1.author_counts =
      d.author_counts := by
  split_ifs with h
  · exact track_author_counts g u d now
  · rfl

/-- C6: `is_duplicate` returns true exactly when a row for that
(group, digest) pair exists with creation time within the last 3 days;
it returns false for a row older than 3 days, for a row of a different
group, and for an empty store (unseen group or digest).  It is a pure
read (its type performs no store update). -/
theorem is_duplicate_characterization (rows : List PostHashRow) (g : Int)
    (h : String) (now : Int) :
    (is_duplicate rows g h now = true ↔
      ∃ r ∈ rows, r.group = g ∧ r.message_hash = h ∧
        now - threeDaysSeconds ≤ r.created_at) ∧
    (∀ r : PostHashRow, r.group = g → r.message_hash = h →
      r.created_at < now - threeDaysSeconds → is_duplicate [r] g h now = false) ∧
    (∀ r : PostHashRow, r.group ≠ g → is_duplicate [r] g h now = false) ∧
    is_duplicate [] g h now = false := by
  refine ⟨?_, ?_, ?_, ?_⟩
  · unfold is_duplicate
    simp [List.any_eq_true, and_assoc]
  · intro r h1 h2 h3
    unfold is_duplicate
    simp [h1, h2]
    omega
  · intro r h1
    unfold is_duplicate
    simp [h1]
  · rfl

/-- Witness for C6: a row of a different group is not a duplicate. -/
theorem is_duplicate_characterization_witness :
    (⟨2, "h", 100⟩ : PostHashRow).group ≠ 1 ∧
    is_duplicate [(⟨2, "h", 100⟩ : PostHashRow)] 1 "h" 200 = false :=
  ⟨by decide,
    (is_duplicate_characterization [⟨2, "h", 100⟩] 1 "h" 200).2.2.1
      ⟨2, "h", 100⟩ (by decide)⟩

/-- C5 (counterexample): the pure-text message `"|x"` and the pure-media
message with file id `"x|"` produce the same digest although their
non-empty parts are not identical strings — both hash the content
`"|x|"`. -/
theorem create_hash_collision_counterexample :
    create_hash "|x" none = create_hash "" (some "x|") ∧ "|x" ≠ "x|" :=
  ⟨rfl, by decide⟩

/-- C5 (amended): `create_hash` is deterministic, empty text and absent
media both normalize to empty-string components, and a pure-text and a
pure-media message produce the same hash input (hence the same digest)
exactly when `text ++ "|" = "|" ++ media_id` — identity of the non-empty
parts is not required for a collision. -/
theorem create_hash_content_correct :
    (∀ t₁ m₁ t₂ m₂, t₁ = t₂ → m₁ = m₂ → create_hash t₁ m₁ = create_hash t₂ m₂) ∧
    hashContent "" none = "|" ∧
    pyOrEmpty none = "" ∧ pyOrEmpty (some "") = "" ∧
    (∀ (t m : String), hashContent t none = hashContent "" (some m) ↔
      t ++ "|" = "|" ++ m) ∧
    (∀ (t m : String), t ++ "|" = "|" ++ m →
      create_hash t none = create_hash "" (some m)) := by
  refine ⟨?_, rfl, rfl, rfl, ?_, ?_⟩
  · intro t₁ m₁ t₂ m₂ ht hm
    rw [ht, hm]
  · intro t m
    unfold hashContent pyOrEmpty
    simp
  · intro t m hc
    unfold create_hash
    have h : hashContent t none = hashContent "" (some m) := by
      unfold hashContent pyOrEmpty
      simpa using hc
    rw [h]

/-- Witness for C5 (amended) at the colliding concrete pair. -/
theorem create_hash_content_correct_witness :
    ("|x" ++ "|" = "|" ++ "x|") ∧
    create_hash "|x" none = create_hash "" (some "x|") :=
  ⟨by decide, create_hash_content_correct.2.2.2.2.2 "|x" "x|" (by decide)⟩

theorem lookupPending_removePending (p : List (MsgKey × PendingData)) (k : MsgKey) :
    lookupPending (removePending p k) k = none := by
  unfold lookupPending removePending
  induction p with
  | nil => simp
  | cons a t ih =>
    by_cases ha : a.1 = k
    · simp [ha]
    · simp [List.filter_cons, ha]

/-- C3: if a deletion notification for a key arrives before the timer
fires, the pending entry is removed, and the timer's firing on that key is
a no-op: the state is unchanged and no effect — no existence re-check, no
duplicate check, no deletion/repost, no quota increment, no fingerprint
insertion — is issued. -/
theorem cancelled_timer_noop (s : BotState) (k : MsgKey) (env : Env) :
    lookupPending (handle_message_deleted s [k]).pending_messages k = none ∧
    process_message_after_delay (handle_message_deleted s [k]) k env =
      (handle_message_deleted s [k], []) := by
  have hl : lookupPending (handle_message_deleted s [k]).pending_messages k = none := by
    unfold handle_message_deleted
    dsimp only [List.foldl]
    exact lookupPending_removePending _ _
  refine ⟨hl, ?_⟩
  unfold process_message_after_delay
  rw [hl]

theorem findQuota_after_save (db : DB) (row : AuthorPostCountRow)
    (hmem : ∃ r ∈ db.author_counts, r.group = row.group ∧ r.user_id = row.user_id) :
    findQuota (saveQuota db row) row.group row.user_id = some row := by
  unfold findQuota saveQuota
  exact find_save_list _ _ hmem

theorem repost_steps_success_authors (g : NormalizerGroup) (msg : Msg) (env : Env)
    (db : DB) (mh : String) (q : Option AuthorPostCountRow)
    (h1 : env.delete_ok = true) (h2 : env.repost_ok = true) :
    (repost_steps g msg env db mh q).1.author_counts =
      match q with
      | some row => db.author_counts.map (fun r =>
          if r.group == row.group && r.user_id == row.user_id then
            { row with posts_today := row.posts_today + 1,
                       posts_this_week := row.posts_this_week + 1 } else r)
      | none => db.author_counts := by
  unfold repost_steps
  rw [if_neg (by simp [h1]), if_neg (by simp [h2])]
  dsimp only
  rw [step_track_authors, step_invite_authors]
  cases q with
  | none => rfl
  | some row => rfl

theorem inv_save_list (l : List AuthorPostCountRow) (row : AuthorPostCountRow)
    (N : Nat) (g uid : Int)
    (hinv : ∀ r ∈ l, r.group = g → r.user_id = uid → r.posts_today ≤ N)
    (hrow : row.group = g → row.user_id = uid → row.posts_today ≤ N) :
    ∀ r ∈ l.map (fun x =>
        if x.group == row.group && x.user_id == row.user_id then row else x),
      r.group = g → r.user_id = uid → r.posts_today ≤ N := by
  intro r hr hg hu
  rcases mem_save_list l row r hr with h | rfl
  · exact hinv r h hg hu
  · exact hrow hg hu

/-- One pipeline run preserves "the (group, author) daily counter is at most
the daily limit", for any message and any transport outcome. -/
theorem quota_bound_step (g : NormalizerGroup) (uid : Int) (msg : Msg) (env : Env)
    (db : DB) (hN : 0 < g.limit_posts_day)
    (hinv : ∀ r ∈ db.author_counts, r.group = g.chat_id → r.user_id = uid →
      r.posts_today ≤ g.limit_posts_day) :
    ∀ r ∈ (normalize_message g msg env db).1.author_counts,
      r.group = g.chat_id → r.user_id = uid → r.posts_today ≤ g.limit_posts_day := by
  unfold normalize_message
  by_cases hse : env.still_exists = false
  · rw [if_pos hse]
    exact hinv
  rw [if_neg hse]
  by_cases hdup : is_duplicate db.post_hashes g.chat_id
      (create_hash msg.text_content msg.media_file_id) env.now = true
  · rw [if_pos hdup]
    exact hinv
  rw [if_neg hdup]
  by_cases hsid : optIdTruthy msg.sender_id = true
  case neg =>
    rw [if_neg hsid]
    dsimp only
    by_cases hdel : env.delete_ok = true
    · by_cases hrep : env.repost_ok = true
      · intro r hr
        rw [repost_steps_success_authors g msg env db
          (create_hash msg.text_content msg.media_file_id) none hdel hrep] at hr
        exact hinv r hr
      · rw [repost_steps_repost_fail g msg env db
          (create_hash msg.text_content msg.media_file_id) none hdel
          (by simpa using hrep)]
        exact hinv
    · rw [repost_steps_delete_fail g msg env db
        (create_hash msg.text_content msg.media_file_id) none (by simpa using hdel)]
      exact hinv
  case pos =>
    rw [if_pos hsid]
    dsimp only
    set sid := msg.sender_id.getD 0 with hsidd
    set row0 := (getOrCreateQuota db g.chat_id sid env.today).1 with hrow0
    set db1 := (getOrCreateQuota db g.chat_id sid env.today).2 with hdb1
    set row' := reset_if_needed row0 env.today with hrowp
    have hinv1 : ∀ r ∈ db1.author_counts, r.group = g.chat_id → r.user_id = uid →
        r.posts_today ≤ g.limit_posts_day := by
      intro r hr hg hu
      rcases mem_getOrCreate db g.chat_id sid env.today r hr with h | rfl
      · exact hinv r h hg hu
      · simp
    have hrowb : row'.group = g.chat_id → row'.user_id = uid →
        row'.posts_today ≤ g.limit_posts_day := by
      intro hg hu
      have hsu : sid = uid := by
        rw [← hu, hrowp, (reset_ids row0 env.today).2, hrow0,
          (getOrCreateQuota_ids db g.chat_id sid env.today).2]
      rcases reset_today_vals row0 env.today with h0 | heq
      · rw [hrowp, h0]
        simp
      · rw [hrowp, heq]
        apply getOrCreate_fst_bound db g.chat_id sid env.today g.limit_posts_day
        intro r hr h1 h2
        exact hinv r hr h1 (by rw [← hsu]; exact h2)
    have hinv2 : ∀ r ∈ (saveQuota db1 row').author_counts, r.group = g.chat_id →
        r.user_id = uid → r.posts_today ≤ g.limit_posts_day :=
      fun r hr => inv_save_list db1.author_counts row' g.limit_posts_day
        g.chat_id uid hinv1 hrowb r hr
    by_cases hdc : 0 < g.limit_posts_day ∧ g.limit_posts_day ≤ row'.posts_today
    · rw [if_pos hdc]
      exact hinv2
    rw [if_neg hdc]
    by_cases hwc : 0 < g.limit_posts_week ∧ g.limit_posts_week ≤ row'.posts_this_week
    · rw [if_pos hwc]
      exact hinv2
    rw [if_neg hwc]
    dsimp only
    by_cases hdel : env.delete_ok = true
    · by_cases hrep : env.repost_ok = true
      · intro r hr
        rw [repost_steps_success_authors g msg env (saveQuota db1 row')
          (create_hash msg.text_content msg.media_file_id) (some row') hdel hrep] at hr
        refine inv_save_list (saveQuota db1 row').author_counts
          { row' with posts_today := row'.posts_today + 1,
                      posts_this_week := row'.posts_this_week + 1 }
          g.limit_posts_day g.chat_id uid hinv2 ?_ r hr
        intro _ _
        have hlt : row'.posts_today < g.limit_posts_day := by
          rcases Nat.lt_or_ge row'.posts_today g.limit_posts_day with h | h
          · exact h
          · exact absurd ⟨hN, h⟩ hdc
        simpa using hlt
      · rw [repost_steps_repost_fail g msg env (saveQuota db1 row')
          (create_hash msg.text_content msg.media_file_id) (some row') hdel
          (by simpa using hrep)]
        exact hinv2
    · rw [repost_steps_delete_fail g msg env (saveQuota db1 row')
        (create_hash msg.text_content msg.media_file_id) (some row')
        (by simpa using hdel)]
      exact hinv2

theorem quota_bound_run (g : NormalizerGroup) (uid : Int)
    (inputs : List (Msg × Env)) (db0 : DB) (hN : 0 < g.limit_posts_day)
    (hinv : ∀ r ∈ db0.author_counts, r.group = g.chat_id → r.user_id = uid →
      r.posts_today ≤ g.limit_posts_day) :
    ∀ r ∈ (runMessages g inputs db0).author_counts,
      r.group = g.chat_id → r.user_id = uid → r.posts_today ≤ g.limit_posts_day := by
  induction inputs generalizing db0 with
  | nil => exact hinv
  | cons me rest ih =>
    exact ih ((normalize_message g me.1 me.2 db0).1)
      (quota_bound_step g uid me.1 me.2 db0 hN hinv)

/-- C2: on a non-duplicate message with a (truthy) sender, the pipeline
rejects with `day_limited` exactly when the daily limit is positive and the
post-reset daily count has already reached it (analogously for
`week_limited`, checked second; a limit of 0 disables the check); on every
rejected or failed path the stored row keeps its post-reset counts, and
only on the successful repost path are both counters incremented by one;
consequently, under a positive daily limit N the stored daily counter of
any (group, author) row never exceeds N across any run of messages. -/
theorem quota_limits_correct (g : NormalizerGroup) (msg : Msg) (env : Env)
    (db : DB) (uid : Int)
    (hs : env.still_exists = true)
    (hnd : is_duplicate db.post_hashes g.chat_id
      (create_hash msg.text_content msg.media_file_id) env.now = false)
    (hsid : msg.sender_id = some uid) (huid : uid ≠ 0) :
    (0 < g.limit_posts_day →
      ∀ (inputs : List (Msg × Env)) (db0 : DB),
        (∀ r ∈ db0.author_counts, r.group = g.chat_id → r.user_id = uid →
          r.posts_today ≤ g.limit_posts_day) →
        ∀ r ∈ (runMessages g inputs db0).author_counts,
          r.group = g.chat_id → r.user_id = uid →
            r.posts_today ≤ g.limit_posts_day) ∧
    ((normalize_message g msg env db).2.2 = .day_limited ↔
      0 < g.limit_posts_day ∧ g.limit_posts_day ≤
        (reset_if_needed (getOrCreateQuota db g.chat_id uid env.today).1
          env.today).posts_today) ∧
    ((normalize_message g msg env db).2.2 = .week_limited ↔
      ¬(0 < g.limit_posts_day ∧ g.limit_posts_day ≤
        (reset_if_needed (getOrCreateQuota db g.chat_id uid env.today).1
          env.today).posts_today) ∧
      0 < g.limit_posts_week ∧ g.limit_posts_week ≤
        (reset_if_needed (getOrCreateQuota db g.chat_id uid env.today).1
          env.today).posts_this_week) ∧
    (((normalize_message g msg env db).2.2 = .day_limited ∨
      (normalize_message g msg env db).2.2 = .week_limited ∨
      (normalize_message g msg env db).2.2 = .delete_failed ∨
      (normalize_message g msg env db).2.2 = .repost_failed) →
      findQuota (normalize_message g msg env db).1 g.chat_id uid =
        some (reset_if_needed (getOrCreateQuota db g.chat_id uid env.today).1
          env.today)) ∧
    ((normalize_message g msg env db).2.2 = .reposted →
      findQuota (normalize_message g msg env db).1 g.chat_id uid =
        some { reset_if_needed (getOrCreateQuota db g.chat_id uid env.today).1
                 env.today with
               posts_today := (reset_if_needed
                 (getOrCreateQuota db g.chat_id uid env.today).1
                   env.today).posts_today + 1,
               posts_this_week := (reset_if_needed
                 (getOrCreateQuota db g.chat_id uid env.today).1
                   env.today).posts_this_week + 1 }) := by
  refine ⟨fun hN inputs db0 hinv => quota_bound_run g uid inputs db0 hN hinv, ?_⟩
  have htr : optIdTruthy msg.sender_id = true := by
    rw [hsid]
    simpa [optIdTruthy] using huid
  have hgetd : msg.sender_id.getD 0 = uid := by rw [hsid]; rfl
  unfold normalize_message
  rw [if_neg (by simp [hs]), if_neg (by simp [hnd]), if_pos htr]
  dsimp only
  rw [hgetd]
  set row0 := (getOrCreateQuota db g.chat_id uid env.today).1 with hrow0
  set db1 := (getOrCreateQuota db g.chat_id uid env.today).2 with hdb1
  set row' := reset_if_needed row0 env.today with hrowp
  have hg' : row'.group = g.chat_id := by
    rw [hrowp, (reset_ids row0 env.today).1, hrow0,
      (getOrCreateQuota_ids db g.chat_id uid env.today).1]
  have hu' : row'.user_id = uid := by
    rw [hrowp, (reset_ids row0 env.today).2, hrow0,
      (getOrCreateQuota_ids db g.chat_id uid env.today).2]
  have hmem1 : ∃ r ∈ db1.author_counts,
      r.group = row'.group ∧ r.user_id = row'.user_id := by
    refine ⟨row0, ?_, ?_, ?_⟩
    · exact getOrCreateQuota_fst_mem db g.chat_id uid env.today
    · rw [hg', hrow0, (getOrCreateQuota_ids db g.chat_id uid env.today).1]
    · rw [hu', hrow0, (getOrCreateQuota_ids db g.chat_id uid env.today).2]
  have hfind2 : findQuota (saveQuota db1 row') g.chat_id uid = some row' := by
    rw [← hg', ← hu']
    exact findQuota_after_save db1 row' hmem1
  by_cases hdc : 0 < g.limit_posts_day ∧ g.limit_posts_day ≤ row'.posts_today
  · rw [if_pos hdc]
    refine ⟨by simp [hdc], ?_, fun _ => hfind2, by simp⟩
    constructor
    · intro h
      simp at h
    · rintro ⟨hneg, _⟩
      exact absurd hdc hneg
  · rw [if_neg hdc]
    by_cases hwc : 0 < g.limit_posts_week ∧ g.limit_posts_week ≤ row'.posts_this_week
    · rw [if_pos hwc]
      refine ⟨by simp [hdc], by simp [hdc, hwc], fun _ => hfind2, by simp⟩
    · rw [if_neg hwc]
      dsimp only
      by_cases hdel : env.delete_ok = true
      · by_cases hrep : env.repost_ok = true
        · have hout := repost_steps_success_outcome g msg env (saveQuota db1 row')
            (create_hash msg.text_content msg.media_file_id) (some row') hdel hrep
          have hauth := repost_steps_success_authors g msg env (saveQuota db1 row')
            (create_hash msg.text_content msg.media_file_id) (some row') hdel hrep
          refine ⟨by simp [hout.1, hdc], by simp [hout.1, hdc, hwc], ?_, ?_⟩
          · intro hcase
            rw [hout.1] at hcase
            simp at hcase
          · intro _
            unfold findQuota
            rw [hauth]
            dsimp only
            rw [← hg', ← hu']
            exact find_save_list (saveQuota db1 row').author_counts
              { row' with posts_today := row'.posts_today + 1,
                          posts_this_week := row'.posts_this_week + 1 }
              ⟨row', List.mem_of_find?_eq_some hfind2, rfl, rfl⟩
        · have hfail := repost_steps_repost_fail g msg env (saveQuota db1 row')
            (create_hash msg.text_content msg.media_file_id) (some row') hdel
            (by simpa using hrep)
          rw [hfail]
          refine ⟨by simp [hdc], by simp [hdc, hwc], fun _ => hfind2, by simp⟩
      · have hfail := repost_steps_delete_fail g msg env (saveQuota db1 row')
          (create_hash msg.text_content msg.media_file_id) (some row')
          (by simpa using hdel)
        rw [hfail]
        refine ⟨by simp [hdc], by simp [hdc, hwc], fun _ => hfind2, by simp⟩

/-- Witness for C2: with daily limit 1 and a fresh author the first post is
not day-limited. -/
theorem quota_limits_correct_witness :
    (normalize_message ⟨-100, true, 1, 0, true⟩
        ⟨-100, 10, "t", none, some 5, none⟩
        ⟨true, true, true, 1000, ⟨2024, 1, 10⟩⟩ ⟨[], [], []⟩).2.2 ≠
      Outcome.day_limited := by
  intro h
  have hc := (quota_limits_correct ⟨-100, true, 1, 0, true⟩
    ⟨-100, 10, "t", none, some 5, none⟩
    ⟨true, true, true, 1000, ⟨2024, 1, 10⟩⟩ ⟨[], [], []⟩ 5 rfl rfl rfl
    (by decide)).2.1.mp h
  revert hc
  decide

theorem hash_insert_only_on_repost (g : NormalizerGroup) (msg : Msg) (env : Env)
    (db : DB) (d : String)
    (h : Effect.hash_insert d ∈ (normalize_message g msg env db).2.1) :
    (normalize_message g msg env db).2.2 = .reposted ∧
    Effect.repost ∈ (normalize_message g msg env db).2.1 := by
  unfold normalize_message at h ⊢
  by_cases hse : env.still_exists = false
  · rw [if_pos hse] at h
    simp at h
  rw [if_neg hse] at h ⊢
  by_cases hdup : is_duplicate db.post_hashes g.chat_id
      (create_hash msg.text_content msg.media_file_id) env.now = true
  · rw [if_pos hdup] at h
    simp at h
  rw [if_neg hdup] at h ⊢
  by_cases hsid : optIdTruthy msg.sender_id = true
  case neg =>
    rw [if_neg hsid] at h ⊢
    dsimp only at h ⊢
    by_cases hdel : env.delete_ok = true
    · by_cases hrep : env.repost_ok = true
      · have hout := repost_steps_success_outcome g msg env db
          (create_hash msg.text_content msg.media_file_id) none hdel hrep
        exact ⟨hout.1, List.mem_append_right _ hout.2.1⟩
      · rw [repost_steps_repost_fail g msg env db
          (create_hash msg.text_content msg.media_file_id) none hdel
          (by simpa using hrep)] at h
        simp at h
    · rw [repost_steps_delete_fail g msg env db
        (create_hash msg.text_content msg.media_file_id) none
        (by simpa using hdel)] at h
      simp at h
  case pos =>
    rw [if_pos hsid] at h ⊢
    dsimp only at h ⊢
    by_cases hdc : 0 < g.limit_posts_day ∧ g.limit_posts_day ≤
        (reset_if_needed (getOrCreateQuota db g.chat_id
          (msg.sender_id.getD 0) env.today).1 env.today).posts_today
    · rw [if_pos hdc] at h
      simp at h
    rw [if_neg hdc] at h ⊢
    by_cases hwc : 0 < g.limit_posts_week ∧ g.limit_posts_week ≤
        (reset_if_needed (getOrCreateQuota db g.chat_id
          (msg.sender_id.getD 0) env.today).1 env.today).posts_this_week
    · rw [if_pos hwc] at h
      simp at h
    rw [if_neg hwc] at h ⊢
    dsimp only at h ⊢
    set row2 := reset_if_needed (getOrCreateQuota db g.chat_id
      (msg.sender_id.getD 0) env.today).1 env.today with hrow2
    set db2 := saveQuota (getOrCreateQuota db g.chat_id
      (msg.sender_id.getD 0) env.today).2 row2 with hdb2
    by_cases hdel : env.delete_ok = true
    · by_cases hrep : env.repost_ok = true
      · have hout := repost_steps_success_outcome g msg env db2
          (create_hash msg.text_content msg.media_file_id) (some row2) hdel hrep
        exact ⟨hout.1, List.mem_append_right _ hout.2.1⟩
      · rw [repost_steps_repost_fail g msg env db2
          (create_hash msg.text_content msg.media_file_id) (some row2) hdel
          (by simpa using hrep)] at h
        simp at h
    · rw [repost_steps_delete_fail g msg env db2
        (create_hash msg.text_content msg.media_file_id) (some row2)
        (by simpa using hdel)] at h
      simp at h

/-- C4: on a message whose digest is a live duplicate for its group, the
pipeline issues only the existence check, the duplicate check, and the
deletion of the original — no repost, no fingerprint insertion, and an
unchanged store (quota counters untouched); and in general a fingerprint
insertion effect occurs only on a run that ends `reposted` with a repost
emitted, never on a rejected, duplicate, or quota-blocked path. -/
theorem duplicate_frame_correct (g : NormalizerGroup) (msg : Msg) (env : Env)
    (db : DB)
    (hs : env.still_exists = true)
    (hdup : is_duplicate db.post_hashes g.chat_id
      (create_hash msg.text_content msg.media_file_id) env.now = true) :
    normalize_message g msg env db =
      (db, [.existence_check,
            .duplicate_check (create_hash msg.text_content msg.media_file_id),
            .delete_original], .duplicate) ∧
    (∀ (gG : NormalizerGroup) (m : Msg) (e : Env) (d : DB) (dg : String),
      Effect.hash_insert dg ∈ (normalize_message gG m e d).2.1 →
      (normalize_message gG m e d).2.2 = .reposted ∧
      Effect.repost ∈ (normalize_message gG m e d).2.1) := by
  constructor
  · unfold normalize_message
    rw [if_neg (by simp [hs]), if_pos hdup]
    rfl
  · exact fun gG m e d dg h => hash_insert_only_on_repost gG m e d dg h

/-- Witness for C4 at a concrete duplicate within the window. -/
theorem duplicate_frame_correct_witness :
    is_duplicate [⟨-100, create_hash "t" none, 900⟩] (-100) (create_hash "t" none)
        1000 = true ∧
    normalize_message ⟨-100, true, 0, 0, true⟩ ⟨-100, 10, "t", none, some 5, none⟩
        ⟨true, true, true, 1000, ⟨2024, 1, 10⟩⟩
        ⟨[⟨-100, create_hash "t" none, 900⟩], [], []⟩ =
      (⟨[⟨-100, create_hash "t" none, 900⟩], [], []⟩,
       [.existence_check, .duplicate_check (create_hash "t" none),
        .delete_original], .duplicate) := by
  have hdup : is_duplicate [⟨-100, create_hash "t" none, 900⟩] (-100)
      (create_hash "t" none) 1000 = true := by
    unfold is_duplicate
    simp [threeDaysSeconds]
  exact ⟨hdup, (duplicate_frame_correct ⟨-100, true, 0, 0, true⟩
    ⟨-100, 10, "t", none, some 5, none⟩ ⟨true, true, true, 1000, ⟨2024, 1, 10⟩⟩
    ⟨[⟨-100, create_hash "t" none, 900⟩], [], []⟩ rfl hdup).1⟩

/-- C10: a message without a sender id never touches the quota stage —
no `AuthorPostCount` row is created or incremented, it is never
quota-rejected, and no `PendingInvite` is created — and once past the
duplicate check it is reposted (when delete and send succeed) regardless
of the group's configured limits. -/
theorem channel_post_skips_quota (g : NormalizerGroup) (msg : Msg) (env : Env)
    (db : DB)
    (hsid : msg.sender_id = none)
    (hs : env.still_exists = true)
    (hnd : is_duplicate db.post_hashes g.chat_id
      (create_hash msg.text_content msg.media_file_id) env.now = false) :
    ((normalize_message g msg env db).1.author_counts = db.author_counts) ∧
    ((normalize_message g msg env db).1.pending_invites = db.pending_invites) ∧
    ((normalize_message g msg env db).2.2 ≠ .day_limited) ∧
    ((normalize_message g msg env db).2.2 ≠ .week_limited) ∧
    (∀ u, Effect.quota_increment u ∉ (normalize_message g msg env db).2.1) ∧
    (∀ u, Effect.pending_invite_create u ∉ (normalize_message g msg env db).2.1) ∧
    (env.delete_ok = true → env.repost_ok = true →
      (normalize_message g msg env db).2.2 = .reposted ∧
      Effect.repost ∈ (normalize_message g msg env db).2.1) := by
  have hnt : ¬ optIdTruthy msg.sender_id = true := by
    rw [hsid]
    simp [optIdTruthy]
  unfold normalize_message
  rw [if_neg (by simp [hs]), if_neg (by simp [hnd]), if_neg hnt]
  dsimp only
  by_cases hdel : env.delete_ok = true
  · by_cases hrep : env.repost_ok = true
    · unfold repost_steps send_invite_message
      rw [if_neg (by simp [hdel]), if_neg (by simp [hrep])]
      dsimp only
      simp only [hsid, optIdTruthy, Bool.false_eq_true, if_false]
      split_ifs <;> simp
    · rw [repost_steps_repost_fail g msg env db
        (create_hash msg.text_content msg.media_file_id) none hdel
        (by simpa using hrep)]
      simp
      exact fun _ => by simpa using hrep
  · rw [repost_steps_delete_fail g msg env db
      (create_hash msg.text_content msg.media_file_id) none
      (by simpa using hdel)]
    simp
    exact fun hd => absurd hd hdel

/-- Witness for C10: a channel-authored post is reposted despite positive
limits. -/
theorem channel_post_skips_quota_witness :
    (⟨-100, 11, "t", none, none, some 7⟩ : Msg).sender_id = none ∧
    (normalize_message ⟨-100, true, 1, 1, true⟩ ⟨-100, 11, "t", none, none, some 7⟩
        ⟨true, true, true, 1000, ⟨2024, 1, 10⟩⟩ ⟨[], [], []⟩).2.2 = .reposted ∧
    Effect.repost ∈ (normalize_message ⟨-100, true, 1, 1, true⟩
        ⟨-100, 11, "t", none, none, some 7⟩
        ⟨true, true, true, 1000, ⟨2024, 1, 10⟩⟩ ⟨[], [], []⟩).2.1 := by
  refine ⟨rfl, ?_⟩
  have h := (channel_post_skips_quota ⟨-100, true, 1, 1, true⟩
    ⟨-100, 11, "t", none, none, some 7⟩
    ⟨true, true, true, 1000, ⟨2024, 1, 10⟩⟩ ⟨[], [], []⟩ rfl rfl rfl).2.2.2.2.2.2
  exact h rfl rfl

/-! Helper lemmas for the invite sweep and `PendingInvite` creation. -/

theorem check_pending_invites_get (db : DB) (now : Int)
    (membership : Int → Int → Option String) (i : Nat) :
    (check_pending_invites db now membership).pending_invites.get? i =
      (db.pending_invites.get? i).map (fun r =>
        if r.status = .pending ∧ r.added_at ≤ now - sevenDaysSeconds then
          match membership r.group r.user_id with
          | none => r
          | some st =>
            if memberStatusJoined st then { r with status := .joined } else r
        else r) := by
  unfold check_pending_invites
  dsimp only
  rw [List.get?_map]

theorem saveQuota_pending (db : DB) (row : AuthorPostCountRow) :
    (saveQuota db row).pending_invites = db.pending_invites := rfl

theorem getOrCreate_pending (db : DB) (g uid : Int) (today : PyDate) :
    (getOrCreateQuota db g uid today).2.pending_invites = db.pending_invites := by
  unfold getOrCreateQuota
  cases findQuota db g uid <;> rfl

theorem step_invite_db (g : NormalizerGroup) (c : Prop) [Decidable c]
    (u : Int) (d : DB) :
    (if c then send_invite_message g u d else (d, [])).1 = d := by
  split_ifs with h
  · exact send_invite_message_db g u d
  · rfl

theorem findInvite_congr (d1 d2 : DB) (g u : Int)
    (h : d1.pending_invites = d2.pending_invites) :
    findInvite d1 g u = findInvite d2 g u := by
  unfold findInvite
  rw [h]

theorem findInvite_stepif (gS : NormalizerGroup) (c : Prop) [Decidable c]
    (uS : Int) (d : DB) (gq uq : Int) :
    findInvite (if c then send_invite_message gS uS d else (d, [])).1 gq uq =
      findInvite d gq uq :=
  findInvite_congr _ d gq uq (by rw [step_invite_db])

theorem findInvite_save (d : DB) (row : AuthorPostCountRow) (gq uq : Int) :
    findInvite (saveQuota d row) gq uq = findInvite d gq uq := rfl

theorem findInvite_mk (ph : List PostHashRow) (ac : List AuthorPostCountRow)
    (pinv : List PendingInviteRow) (gq uq : Int) :
    findInvite ⟨ph, ac, pinv⟩ gq uq =
      pinv.find? (fun r => r.group == gq && r.user_id == uq) := rfl

/-- C9 (amended): one sweep examines exactly the pending rows with
`added_at ≤ now - 7 days` (the boundary is inclusive: a record exactly 7
days old is examined); an examined row becomes `joined` exactly when the
membership query reports a member/administrator/creator status, stays
`pending` on any other reported status and on a query failure, and is
never moved to `skipped`; rows not examined are returned unchanged. -/
theorem check_pending_invites_correct (db : DB) (now : Int)
    (membership : Int → Int → Option String) :
    ∀ (i : Nat) (r : PendingInviteRow), db.pending_invites.get? i = some r →
      (¬(r.status = .pending ∧ r.added_at ≤ now - sevenDaysSeconds) →
        (check_pending_invites db now membership).pending_invites.get? i = some r) ∧
      (r.status = .pending → r.added_at ≤ now - sevenDaysSeconds →
        (∀ st, membership r.group r.user_id = some st → memberStatusJoined st = true →
          (check_pending_invites db now membership).pending_invites.get? i =
            some { r with status := .joined }) ∧
        (∀ st, membership r.group r.user_id = some st → memberStatusJoined st = false →
          (check_pending_invites db now membership).pending_invites.get? i = some r) ∧
        (membership r.group r.user_id = none →
          (check_pending_invites db now membership).pending_invites.get? i = some r)) := by
  intro i r hr
  refine ⟨?_, ?_⟩
  · intro hnc
    rw [check_pending_invites_get, hr]
    dsimp only [Option.map]
    rw [if_neg hnc]
  · intro hp hd
    refine ⟨?_, ?_, ?_⟩
    · intro st hm hjs
      rw [check_pending_invites_get, hr]
      dsimp only [Option.map]
      rw [if_pos ⟨hp, hd⟩, hm]
      dsimp only
      rw [if_pos hjs]
    · intro st hm hjs
      rw [check_pending_invites_get, hr]
      dsimp only [Option.map]
      rw [if_pos ⟨hp, hd⟩, hm]
      dsimp only
      rw [if_neg (by simp [hjs])]
    · intro hm
      rw [check_pending_invites_get, hr]
      dsimp only [Option.map]
      rw [if_pos ⟨hp, hd⟩, hm]

/-- C9 (counterexample): a record exactly 7 days old — not "older than 7
days" — is examined by the sweep and transitioned to `joined`. -/
theorem check_pending_invites_boundary_counterexample :
    (check_pending_invites ⟨[], [], [⟨-100, 7, .pending, 0⟩]⟩ 604800
        (fun _ _ => some "member")).pending_invites =
      [⟨-100, 7, .joined, 0⟩] := rfl

/-- Witness for C9 (amended): an old pending record whose membership query
reports `member` becomes `joined`. -/
theorem check_pending_invites_correct_witness :
    (⟨[], [], [⟨-100, 7, InviteStatus.pending, 0⟩]⟩ : DB).pending_invites.get? 0 =
      some ⟨-100, 7, .pending, 0⟩ ∧
    (check_pending_invites ⟨[], [], [⟨-100, 7, .pending, 0⟩]⟩ 1000000
        (fun _ _ => some "member")).pending_invites.get? 0 =
      some ⟨-100, 7, .joined, 0⟩ :=
  ⟨rfl, ((check_pending_invites_correct ⟨[], [], [⟨-100, 7, .pending, 0⟩]⟩ 1000000
      (fun _ _ => some "member") 0 ⟨-100, 7, .pending, 0⟩ rfl).2 rfl
      (by decide)).1 "member" rfl rfl⟩

/-- C8 (amended): no operation ever sets a record to `invited` — the
invite delivery step writes nothing to the store; an existing record of
any status is left untouched by `track_author_for_invite`; the sweep never
changes a record whose status is not `pending` (in particular `joined` and
`skipped` rows are final), and a pending record at least 7 days old
transitions directly to `joined` when the membership query reports a
member-like status. -/
theorem invite_transitions_correct :
    (∀ (g : NormalizerGroup) (u : Int) (db : DB),
      (send_invite_message g u db).1 = db) ∧
    (∀ (g : NormalizerGroup) (u : Int) (db : DB) (now : Int) (r : PendingInviteRow),
      findInvite db g.chat_id u = some r →
      track_author_for_invite g u db now = (db, [])) ∧
    (∀ (db : DB) (now : Int) (membership : Int → Int → Option String)
      (i : Nat) (r : PendingInviteRow),
      db.pending_invites.get? i = some r → r.status ≠ .pending →
      (check_pending_invites db now membership).pending_invites.get? i = some r) ∧
    (∀ (db : DB) (now : Int) (membership : Int → Int → Option String)
      (i : Nat) (r : PendingInviteRow) (st : String),
      db.pending_invites.get? i = some r → r.status = .pending →
      r.added_at ≤ now - sevenDaysSeconds →
      membership r.group r.user_id = some st → memberStatusJoined st = true →
      (check_pending_invites db now membership).pending_invites.get? i =
        some { r with status := .joined }) := by
  refine ⟨fun g u db => send_invite_message_db g u db, ?_, ?_, ?_⟩
  · intro g u db now r hf
    unfold track_author_for_invite
    rw [hf]
  · intro db now membership i r hr hst
    exact (check_pending_invites_correct db now membership i r hr).1
      (fun hc => hst hc.1)
  · intro db now membership i r st hr hst hold hm hj
    exact ((check_pending_invites_correct db now membership i r hr).2 hst hold).1
      st hm hj

/-- C8 (counterexample): a successfully delivered invite message (the
group has invites enabled, the effect records the send) leaves the store
unchanged — the pending record does not transition to `invited`. -/
theorem invited_transition_counterexample :
    send_invite_message ⟨-100, true, 0, 0, true⟩ 7
        ⟨[], [], [⟨-100, 7, .pending, 0⟩]⟩ =
      (⟨[], [], [⟨-100, 7, .pending, 0⟩]⟩, [.invite_message 7]) := rfl

/-- Witness for C8 (amended): the sweep leaves a `joined` record untouched. -/
theorem invite_transitions_correct_witness :
    (⟨[], [], [⟨-100, 7, InviteStatus.joined, 0⟩]⟩ : DB).pending_invites.get? 0 =
      some ⟨-100, 7, .joined, 0⟩ ∧
    (check_pending_invites ⟨[], [], [⟨-100, 7, .joined, 0⟩]⟩ 1000000
        (fun _ _ => some "member")).pending_invites.get? 0 =
      some ⟨-100, 7, .joined, 0⟩ :=
  ⟨rfl, invite_transitions_correct.2.2.1 ⟨[], [], [⟨-100, 7, .joined, 0⟩]⟩
    1000000 (fun _ _ => some "member") 0 ⟨-100, 7, .joined, 0⟩ rfl (by decide)⟩

/-- C7 (amended): with invites disabled no invite message is sent, but
`PendingInvite` creation is independent of the invite flag, of delivery,
and of membership: after every successful repost of a message with a
(truthy) sender, a `pending` record is get-or-created for the message's
sender — not the forward origin — and an existing record for the pair is
left untouched (idempotent). -/
theorem invite_creation_correct :
    (∀ (g : NormalizerGroup) (u : Int) (db : DB), g.invite_enabled = false →
      send_invite_message g u db = (db, [])) ∧
    (∀ (g : NormalizerGroup) (u : Int) (db : DB) (now : Int),
      findInvite db g.chat_id u = none →
      track_author_for_invite g u db now =
        ({ db with pending_invites :=
            db.pending_invites ++ [⟨g.chat_id, u, .pending, now⟩] },
         [.pending_invite_create u])) ∧
    (∀ (g : NormalizerGroup) (u : Int) (db : DB) (now : Int) (r : PendingInviteRow),
      findInvite db g.chat_id u = some r →
      track_author_for_invite g u db now = (db, [])) ∧
    (∀ (g : NormalizerGroup) (msg : Msg) (env : Env) (db : DB) (uid : Int),
      msg.sender_id = some uid → uid ≠ 0 →
      findInvite db g.chat_id uid = none →
      (normalize_message g msg env db).2.2 = .reposted →
      Effect.pending_invite_create uid ∈ (normalize_message g msg env db).2.1) := by
  refine ⟨?_, ?_, ?_, ?_⟩
  · intro g u db h
    unfold send_invite_message
    rw [if_neg (by simp [h])]
  · intro g u db now hf
    unfold track_author_for_invite
    rw [hf]
  · intro g u db now r hf
    unfold track_author_for_invite
    rw [hf]
  · intro g msg env db uid hsid huid hfresh hout
    have htr : optIdTruthy msg.sender_id = true := by
      rw [hsid]
      simpa [optIdTruthy] using huid
    have hgetd : msg.sender_id.getD 0 = uid := by rw [hsid]; rfl
    unfold normalize_message at hout ⊢
    by_cases hse : env.still_exists = false
    · rw [if_pos hse] at hout
      simp at hout
    rw [if_neg hse] at hout ⊢
    by_cases hdup : is_duplicate db.post_hashes g.chat_id
        (create_hash msg.text_content msg.media_file_id) env.now = true
    · rw [if_pos hdup] at hout
      simp at hout
    rw [if_neg hdup] at hout ⊢
    rw [if_pos htr] at hout ⊢
    dsimp only at hout ⊢
    rw [hgetd] at hout ⊢
    set row' := reset_if_needed
      (getOrCreateQuota db g.chat_id uid env.today).1 env.today with hrowp
    set db2 := saveQuota (getOrCreateQuota db g.chat_id uid env.today).2 row'
      with hdb2
    by_cases hdc : 0 < g.limit_posts_day ∧ g.limit_posts_day ≤ row'.posts_today
    · rw [if_pos hdc] at hout
      simp at hout
    rw [if_neg hdc] at hout ⊢
    by_cases hwc : 0 < g.limit_posts_week ∧
        g.limit_posts_week ≤ row'.posts_this_week
    · rw [if_pos hwc] at hout
      simp at hout
    rw [if_neg hwc] at hout ⊢
    dsimp only at hout ⊢
    by_cases hdel : env.delete_ok = true
    · by_cases hrep : env.repost_ok = true
      · unfold repost_steps
        rw [if_neg (by simp [hdel]), if_neg (by simp [hrep])]
        dsimp only
        rw [if_pos htr, hgetd]
        unfold track_author_for_invite
        have hfr : db2.pending_invites.find?
            (fun r => r.group == g.chat_id && r.user_id == uid) = none := by
          rw [hdb2]
          show (getOrCreateQuota db g.chat_id uid
            env.today).2.pending_invites.find?
            (fun r => r.group == g.chat_id && r.user_id == uid) = none
          rw [getOrCreate_pending]
          exact hfresh
        simp only [findInvite_stepif, findInvite_save, findInvite_mk, hfr]
        simp
      · rw [repost_steps_repost_fail g msg env db2
          (create_hash msg.text_content msg.media_file_id) (some row') hdel
          (by simpa using hrep)] at hout
        simp at hout
    · rw [repost_steps_delete_fail g msg env db2
        (create_hash msg.text_content msg.media_file_id) (some row')
        (by simpa using hdel)] at hout
      simp at hout

/-- C7 (counterexample): a group with invites disabled still gets a
`PendingInvite` created — in state `pending`, for the message's sender
(id 5), not the forward origin (id 7) — while no invite message is sent
(the effect trace has no invite-message entry). -/
theorem invite_disabled_creation_counterexample :
    (normalize_message ⟨-100, true, 0, 0, false⟩
        ⟨-100, 10, "t", none, some 5, some 7⟩
        ⟨true, true, true, 1000, ⟨2024, 1, 10⟩⟩ ⟨[], [], []⟩).1.pending_invites =
      [⟨-100, 5, .pending, 1000⟩] ∧
    (normalize_message ⟨-100, true, 0, 0, false⟩
        ⟨-100, 10, "t", none, some 5, some 7⟩
        ⟨true, true, true, 1000, ⟨2024, 1, 10⟩⟩ ⟨[], [], []⟩).2.1 =
      [.existence_check, .duplicate_check (create_hash "t" none),
       .delete_original, .repost, .hash_insert (create_hash "t" none),
       .quota_increment 5, .pending_invite_create 5] :=
  ⟨rfl, rfl⟩

/-- Witness for C7 (amended): with invites disabled the delivery step is a
no-op. -/
theorem invite_creation_correct_witness :
    (⟨-100, true, 0, 0, false⟩ : NormalizerGroup).invite_enabled = false ∧
    send_invite_message ⟨-100, true, 0, 0, false⟩ 7 ⟨[], [], []⟩ =
      (⟨[], [], []⟩, []) :=
  ⟨rfl, invite_creation_correct.1 ⟨-100, true, 0, 0, false⟩ 7 ⟨[], [], []⟩ rfl⟩

end PostNormalizer
